import Mathlib

/-!
# Verification of dbsavr against its specification

Shallow embedding of the parts of `dbsavr` (a database-backup tool storing
artifacts in S3) that the claims are about:

* `config.py`       — the configuration dataclasses;
* `storage.py`      — `S3Storage.cleanup_old_backups` (retention cleanup);
* `backup_service.py` — `BackupService.perform_backup`, `cleanup_old_backups`,
  `_get_schedule_info`, `_get_schedule_by_prefix`;
* `scheduler_service.py` — `_scheduler_loop`, `_update_next_run(s)`,
  `_run_backup`.

Conventions of the embedding:

* Times are UTC timestamps in seconds, modelled as `Int`; `timedelta(days=d)`
  is `d * 86400` seconds.
* The contents of the S3 bucket selected by the call (the custom bucket when
  one is configured, the default bucket otherwise) are an explicit
  `List S3Object` argument, in listing order.  `list_objects_v2` with a
  `Prefix` returns exactly the objects whose key has that string as a string
  prefix (real S3 semantics: a plain byte-prefix match, no path-segment
  boundary); pagination only chunks the listing, so it is modelled as the
  un-chunked list.
* External effectful steps of a backup run (the database dump, stat-ing the
  dump file, the S3 upload, the S3 cleanup) are modelled by an environment
  record holding each step's outcome (`Except`), and `perform_backup` is the
  pure control flow of `BackupService.perform_backup` over those outcomes.
* The celery `crontab` next-run computation is an external library; it is a
  parameter `cronNext : List String → Int → Int` taking the five cron fields
  and the current time.  The five-field validation that `dbsavr` performs
  before calling the library is part of the embedding.
-/

namespace Dbsavr

/-! ## Data model (`config.py`) -/

/-- `S3Config` dataclass from `config.py`. -/
structure S3Config where
  bucket_name : String
  pfx : String
  region : String
  access_key : Option String := none
  secret_key : Option String := none
  deriving Repr, DecidableEq

/-- `DatabaseConfig` dataclass from `config.py` (options omitted: an opaque
dict never read by the code under verification). -/
structure DatabaseConfig where
  type : String
  host : String
  port : Int
  username : String
  password : String
  database : String
  bucket_name : Option String := none
  deriving Repr, DecidableEq

/-- `BackupSchedule` dataclass from `config.py`. -/
structure BackupSchedule where
  database_name : String
  cron_expression : String
  retention_days : Int := 30
  pfx : Option String := none
  deriving Repr, DecidableEq, BEq

/-- `Config` dataclass from `config.py`.  The `databases` dict is modelled as
an association list keyed by database name. -/
structure Config where
  databases : List (String × DatabaseConfig)
  s3 : S3Config
  schedules : List BackupSchedule
  log_level : String := "INFO"
  notifications_email : Option String := none
  deriving Repr

/-- `db_name in self.config.databases` (dict key membership). -/
def Config.hasDb (cfg : Config) (db_name : String) : Bool :=
  cfg.databases.any (fun p => p.1 == db_name)

/-- `self.config.databases[db_name]` (defined when `hasDb`). -/
def Config.getDb (cfg : Config) (db_name : String) : Option DatabaseConfig :=
  (cfg.databases.find? (fun p => p.1 == db_name)).map (·.2)

/-! ## S3 model and `S3Storage.cleanup_old_backups` (`storage.py`) -/

/-- One object of an S3 listing: its key and its `LastModified` time
(seconds, UTC, tz already stripped as by `.replace(tzinfo=None)`). -/
structure S3Object where
  key : String
  lastModified : Int
  deriving Repr, DecidableEq

/-- `os.path.join a b` for the relative, slash-free-tail components the code
passes (config prefix, db name, schedule prefix, filename). -/
def pyJoin (a b : String) : String :=
  if a = "" then b else a ++ "/" ++ b

/-- String-prefix test, the matching rule S3 applies to `Prefix=`. -/
def strHasPfx (p s : String) : Bool :=
  p.data.isPrefixOf s.data

/-- Python truthiness of an `Optional[str]` (`None` and `""` are falsy). -/
def truthy : Option String → Bool
  | none => false
  | some s => !(s == "")

/-- `list_objects_v2(Bucket=…, Prefix=pfx)` over the whole paginated listing:
the objects of the bucket whose key has `pfx` as a *string* prefix, in
listing order. -/
def listObjects (bucket : List S3Object) (pfx : String) : List S3Object :=
  bucket.filter (fun o => strHasPfx pfx o.key)

/-- Seconds in a day (`timedelta(days=1)`). -/
def secondsPerDay : Int := 86400

/-- The inner loop of `cleanup_old_backups` (storage.py lines 114–124): walk
the listing in order; delete an object iff its `LastModified` is strictly
before the cutoff; return the deleted keys in deletion order. -/
def deleteOld (cutoff : Int) : List S3Object → List String
  | [] => []
  | o :: rest =>
      if o.lastModified < cutoff then o.key :: deleteOld cutoff rest
      else deleteOld cutoff rest

/-- The scope prefix `cleanup_old_backups` lists under (storage.py lines
96–103): `os.path.join(base_prefix, db_name, custom_prefix)` when
`custom_prefix` is truthy, else `os.path.join(base_prefix, db_name)`.
Note: no trailing slash is appended. -/
def cleanupScopePfx (cfg : S3Config) (db_name : String)
    (custom_pfx : Option String) : String :=
  match custom_pfx with
  | some p =>
      if p = "" then pyJoin cfg.pfx db_name
      else pyJoin (pyJoin cfg.pfx db_name) p
  | none => pyJoin cfg.pfx db_name

/-- `S3Storage.cleanup_old_backups(db_name, retention_days, custom_bucket,
custom_prefix)` (storage.py lines 70–130), with the selected bucket's
contents and the current UTC time explicit.  Cutoff is
`utcnow() - timedelta(days=retention_days)`; an object is deleted iff its
`LastModified < cutoff`.  Returns the deleted keys in deletion order. -/
def cleanup_old_backups (cfg : S3Config) (bucket : List S3Object) (now : Int)
    (db_name : String) (retention_days : Int)
    (custom_pfx : Option String := none) : List String :=
  let scope := cleanupScopePfx cfg db_name custom_pfx
  let cutoff := now - retention_days * secondsPerDay
  deleteOld cutoff (listObjects bucket scope)

/-! ## Schedule lookups (`backup_service.py`) -/

/-- The schedule-information dict built by `BackupService._get_schedule_info`
and friends: keys `index`, `retention_days`, `prefix` (here `pfx`),
`cron_expression`. -/
structure ScheduleInfo where
  index : Option Nat
  retention_days : Int
  pfx : Option String
  cron_expression : Option String
  deriving Repr, DecidableEq

/-- The default schedule info `{index: None, retention_days: 30,
prefix: None, cron_expression: None}` returned when no schedule matches. -/
def defaultScheduleInfo : ScheduleInfo :=
  { index := none, retention_days := 30, pfx := none, cron_expression := none }

/-- The schedule-info dict for the schedule at index `i`. -/
def scheduleInfoAt (i : Option Nat) (s : BackupSchedule) : ScheduleInfo :=
  { index := i, retention_days := s.retention_days, pfx := s.pfx,
    cron_expression := some s.cron_expression }

/-- The no-index path of `_get_schedule_info` (backup_service.py lines
300–324): take the first schedule whose `database_name` matches; if none,
return the default; otherwise re-find its index by dataclass equality. -/
def fallbackScheduleInfo (cfg : Config) (db_name : String) : ScheduleInfo :=
  match cfg.schedules.find? (fun s => s.database_name == db_name) with
  | none => defaultScheduleInfo
  | some schedule =>
      scheduleInfoAt (cfg.schedules.findIdx? (fun s => s == schedule)) schedule

/-- `BackupService._get_schedule_info(db_name, schedule_index)`
(backup_service.py lines 275–324).  With an in-range index whose schedule
matches `db_name`, that schedule is used; a mismatching or out-of-range
index falls through to the first-match lookup. -/
def get_schedule_info (cfg : Config) (db_name : String)
    (schedule_index : Option Nat := none) : ScheduleInfo :=
  match schedule_index with
  | some i =>
      match cfg.schedules.get? i with
      | some schedule =>
          if schedule.database_name == db_name then scheduleInfoAt (some i) schedule
          else fallbackScheduleInfo cfg db_name
      | none => fallbackScheduleInfo cfg db_name
  | none => fallbackScheduleInfo cfg db_name

/-- The indexed search loop of `_get_schedule_by_prefix` (backup_service.py
lines 258–265): first `(idx, schedule)` with matching database name and
prefix. -/
def findSchedIdx (db_name p : String) : Nat → List BackupSchedule →
    Option (Nat × BackupSchedule)
  | _, [] => none
  | i, s :: rest =>
      if s.database_name == db_name && s.pfx == some p then some (i, s)
      else findSchedIdx db_name p (i + 1) rest

/-- `BackupService._get_schedule_by_prefix(db_name, prefix)`
(backup_service.py lines 247–273): first schedule matching name and prefix,
else the default schedule info. -/
def get_schedule_by_pfx (cfg : Config) (db_name p : String) : ScheduleInfo :=
  match findSchedIdx db_name p 0 cfg.schedules with
  | some (i, s) => scheduleInfoAt (some i) s
  | none => defaultScheduleInfo

/-- Python `a or b` on `Optional[str]` operands (`None` and `""` falsy). -/
def pyOrStr (a b : Option String) : Option String :=
  match a with
  | some s => if s = "" then b else some s
  | none => b

/-- `BackupService.cleanup_old_backups(db_name, days, schedule_prefix)`
(backup_service.py lines 171–214): resolve the schedule (by prefix when a
truthy one is supplied), take `days` when given else the schedule's
retention, use the caller's prefix when truthy else the schedule's, and run
the storage cleanup.  An unconfigured database name raises `ValueError`. -/
def service_cleanup_old_backups (cfg : Config) (bucket : List S3Object)
    (now : Int) (db_name : String) (days : Option Int := none)
    (schedule_pfx : Option String := none) : Except String (List String) :=
  if cfg.hasDb db_name then
    let schedule_info :=
      match schedule_pfx with
      | some p =>
          if p = "" then get_schedule_info cfg db_name none
          else get_schedule_by_pfx cfg db_name p
      | none => get_schedule_info cfg db_name none
    let retention_days := days.getD schedule_info.retention_days
    let p := pyOrStr schedule_pfx schedule_info.pfx
    .ok (cleanup_old_backups cfg.s3 bucket now db_name retention_days p)
  else .error ("Database configuration not found for: " ++ db_name)

/-! ## Scheduler (`scheduler_service.py`) -/

/-- The `next_runs : Dict[str, datetime]` of `_scheduler_loop`, keyed by
database name, as an insertion-ordered association list (dict semantics:
assignment overwrites in place, new keys append). -/
abbrev NextRuns := List (String × Int)

/-- Dict lookup `next_runs.get(db)`. -/
def lookupNR (nr : NextRuns) (db : String) : Option Int :=
  (nr.find? (fun q => q.1 == db)).map (·.2)

/-- Dict assignment `next_runs[db] = t`. -/
def insertNR (nr : NextRuns) (db : String) (t : Int) : NextRuns :=
  if nr.any (fun q => q.1 == db) then
    nr.map (fun q => if q.1 == db then (db, t) else q)
  else nr ++ [(db, t)]

/-- Helper for `splitFields`: walk the characters, collecting the current
field in reverse in `acc`; whitespace ends a field, runs of whitespace
produce no empty fields. -/
def splitWsAux : List Char → List Char → List String
  | [], acc => if acc = [] then [] else [String.mk acc.reverse]
  | c :: rest, acc =>
      if c.isWhitespace then
        if acc = [] then splitWsAux rest []
        else String.mk acc.reverse :: splitWsAux rest []
      else splitWsAux rest (c :: acc)

/-- Python `str.split()` with no argument: split on whitespace runs,
dropping empty fields. -/
def splitFields (s : String) : List String :=
  splitWsAux s.data []

/-- `SchedulerService._update_next_run(next_runs, db_name, base_time)`
(scheduler_service.py lines 258–306): take the FIRST configured schedule
whose `database_name` matches (`next(...)`); with none, the table is left
unchanged; a cron expression with a field count other than five raises
`ValueError`, which the surrounding `except` swallows, leaving the table
unchanged; otherwise the next run computed by the celery `crontab` library
(abstracted as `cronNext`) is stored under the key `db_name`.  Library
errors on five-field expressions with malformed field contents are not
modelled; the claims quantify only over the field-count check, which the
code performs itself. -/
def update_next_run (cronNext : List String → Int → Int) (cfg : Config)
    (nr : NextRuns) (db_name : String) (now : Int) : NextRuns :=
  match cfg.schedules.find? (fun s => s.database_name == db_name) with
  | none => nr
  | some schedule =>
      let parts := splitFields schedule.cron_expression
      if parts.length = 5 then insertNR nr db_name (cronNext parts now)
      else nr

/-- `SchedulerService._update_next_runs` (lines 245–256): one
`_update_next_run` call per configured schedule, keyed by that schedule's
database name. -/
def update_next_runs (cronNext : List String → Int → Int) (cfg : Config)
    (nr : NextRuns) (now : Int) : NextRuns :=
  cfg.schedules.foldl
    (fun acc s => update_next_run cronNext cfg acc s.database_name now) nr

/-- The scheduler's state: the next-run table, the `_active_backups` set,
and the multiset of backup runs currently in flight (each `_run_backup`
spawns one; it leaves when its `finally` block runs). -/
structure SchedState where
  nextRuns : NextRuns
  active : List String
  inflight : List String
  deriving Repr, DecidableEq

/-- One iteration of the loop body
`for db_name, next_run in list(next_runs.items())` (scheduler_service.py
lines 230–237) at snapshot entry `item = (db, t)`: when due
(`now >= next_run`) and the key is not in the active set, `_run_backup`
first adds the key to `_active_backups` and then spawns the backup thread
(one more in-flight run), after which `_update_next_run` reschedules the
key; otherwise nothing happens. -/
def stepItem (cronNext : List String → Int → Int) (cfg : Config) (now : Int)
    (st : SchedState) (item : String × Int) : SchedState :=
  if now ≥ item.2 ∧ item.1 ∉ st.active then
    { nextRuns := update_next_run cronNext cfg st.nextRuns item.1 now,
      active := item.1 :: st.active,
      inflight := item.1 :: st.inflight }
  else st

/-- One pass of the scheduler loop body over the snapshot of the table. -/
def tick (cronNext : List String → Int → Int) (cfg : Config) (now : Int)
    (st : SchedState) : SchedState :=
  st.nextRuns.foldl (stepItem cronNext cfg now) st

/-- The `finally` block of `_run_backup`'s thread (lines 317–325): when the
run completes — succeeded or failed alike — its key leaves
`_active_backups` and the run leaves the in-flight multiset. -/
def completeRun (db : String) (st : SchedState) : SchedState :=
  { nextRuns := st.nextRuns, active := st.active.erase db,
    inflight := st.inflight.erase db }

/-- The state `_scheduler_loop` starts from (lines 219–223): table
initialised by `_update_next_runs`, no active keys, nothing in flight. -/
def initState (cronNext : List String → Int → Int) (cfg : Config)
    (now : Int) : SchedState :=
  { nextRuns := update_next_runs cronNext cfg [] now, active := [],
    inflight := [] }

/-- States the scheduler can reach: an initial state, a tick of the loop,
or the completion of an in-flight run (the `Bool` is the run's outcome,
which the `finally` block ignores). -/
inductive Reachable (cronNext : List String → Int → Int) (cfg : Config) :
    SchedState → Prop where
  | init (now : Int) : Reachable cronNext cfg (initState cronNext cfg now)
  | step (now : Int) {st : SchedState} : Reachable cronNext cfg st →
      Reachable cronNext cfg (tick cronNext cfg now st)
  | done (db : String) (ok : Bool) {st : SchedState} :
      Reachable cronNext cfg st → db ∈ st.inflight →
      Reachable cronNext cfg (completeRun db st)

/-! ## The backup workflow (`BackupService.perform_backup`) -/

/-- Outcomes of the external, effectful steps of one backup run:
`BackupEngine.backup_database` (the dump, yielding path and filename),
`BackupEngine.get_backup_details` (the dump file's size),
`S3Storage.upload_backup` (yielding the S3 key), and
`S3Storage.cleanup_old_backups` (yielding the deleted keys). -/
structure RunEnv where
  dump : Except String (String × String)
  size : Except String Int
  upload : Except String String
  cleanup : Except String (List String)

/-- The exceptions `perform_backup` can propagate, by raising step. -/
inductive BackupError where
  | notFound (db_name : String)
  | dumpFailed (e : String)
  | sizeFailed (e : String)
  | uploadFailed (e : String)
  | cleanupFailed (e : String)
  deriving Repr, DecidableEq

/-- The claim-relevant fields of the success dict `perform_backup` returns
(timing fields, which read the wall clock, are omitted). -/
structure BackupSuccess where
  s3_key : String
  size_bytes : Int
  deleted_keys : List String
  schedule_pfx : Option String
  retention_days : Int
  deriving Repr, DecidableEq

/-- The observable outcome of one `perform_backup` run: the returned dict
or the propagated exception, whether the local dump file was removed
(`os.remove`, backup_service.py line 80), and whether a success/failure
notification send was attempted (`_send_success_notification` and
`_send_failure_notification` both return without sending when
`notifications_email` is unset, and swallow errors of the send itself). -/
structure RunOutcome where
  result : Except BackupError BackupSuccess
  localRemoved : Bool
  successNotified : Bool
  failureNotified : Bool
  deriving Repr

/-- `BackupService.perform_backup(db_name, schedule_index)`
(backup_service.py lines 26–129).  The whole body runs inside
`try: … except Exception: _send_failure_notification(...); raise`, so every
raising path — including the `ValueError` for an unconfigured database name
at line 47 — attempts a failure notification before propagating.  The local
dump file is removed only on the line after a successful upload. -/
def perform_backup (cfg : Config) (env : RunEnv) (db_name : String)
    (schedule_index : Option Nat := none) : RunOutcome :=
  let notif := cfg.notifications_email.isSome
  if cfg.hasDb db_name then
    let schedule_info := get_schedule_info cfg db_name schedule_index
    match env.dump with
    | .error e => ⟨.error (.dumpFailed e), false, false, notif⟩
    | .ok _ =>
        match env.size with
        | .error e => ⟨.error (.sizeFailed e), false, false, notif⟩
        | .ok size =>
            match env.upload with
            | .error e => ⟨.error (.uploadFailed e), false, false, notif⟩
            | .ok s3_key =>
                match env.cleanup with
                | .error e => ⟨.error (.cleanupFailed e), true, false, notif⟩
                | .ok deleted =>
                    ⟨.ok ⟨s3_key, size, deleted, schedule_info.pfx,
                        schedule_info.retention_days⟩,
                      true, notif, false⟩
  else ⟨.error (.notFound db_name), false, false, notif⟩

/-! ## Concrete fixtures -/

/-- The S3 configuration of the repository's own storage tests:
bucket `test-bucket`, base prefix `backups`. -/
def s3cfgEx : S3Config :=
  { bucket_name := "test-bucket", pfx := "backups", region := "us-east-1" }

/-- A bucket holding one artifact for data source `db1`, one under its
deeper `daily` scope, one for data source `db10`, and one for `db2`, all
last modified at time 0 (far older than any cutoff used below). -/
def bucketEx : List S3Object :=
  [ ⟨"backups/db1/a.sql.gz", 0⟩,
    ⟨"backups/db1/daily/b.sql.gz", 0⟩,
    ⟨"backups/db10/c.sql.gz", 0⟩,
    ⟨"backups/db2/d.sql.gz", 0⟩ ]

/-- A database configuration for the fixtures. -/
def dbcfgEx : DatabaseConfig :=
  { type := "postgresql", host := "localhost", port := 5432,
    username := "u", password := "p", database := "db1" }

/-- A concrete stand-in for the celery next-run computation, giving the
`daily` fixture cron (`1 0 * * *`) the next run 100 and every other
expression the next run 200. -/
def cronNextEx : List String → Int → Int :=
  fun parts _ => if parts = ["1", "0", "*", "*", "*"] then 100 else 200

/-- Two schedules for the same data source `db1`, scope prefixes `daily`
(retention 7) and `weekly` (retention 90), with distinct crons. -/
def cfgTwoSchedules : Config :=
  { databases := [("db1", dbcfgEx)], s3 := s3cfgEx,
    schedules := [⟨"db1", "1 0 * * *", 7, some "daily"⟩,
                  ⟨"db1", "2 0 * * *", 90, some "weekly"⟩] }

/-- `db1` has a malformed (two-field) cron expression; `db2` a valid one. -/
def cfgBadCron : Config :=
  { databases := [("db1", dbcfgEx), ("db2", dbcfgEx)], s3 := s3cfgEx,
    schedules := [⟨"db1", "not acron", 30, none⟩,
                  ⟨"db2", "0 3 * * *", 30, none⟩] }

/-- Schedule 0 belongs to `db2`; the only schedule of `db1` (retention 7)
sits at index 1. -/
def cfgMismatch : Config :=
  { databases := [("db1", dbcfgEx), ("db2", dbcfgEx)], s3 := s3cfgEx,
    schedules := [⟨"db2", "0 3 * * *", 14, none⟩,
                  ⟨"db1", "0 4 * * *", 7, some "daily"⟩] }

/-- A configuration with email notifications configured and only `db1`. -/
def cfgNotified : Config :=
  { databases := [("db1", dbcfgEx)], s3 := s3cfgEx, schedules := [],
    notifications_email := some "ops@example.com" }

/-- A run environment in which every external step succeeds. -/
def envOk : RunEnv :=
  { dump := .ok ("/tmp/db1.sql.gz", "db1.sql.gz"), size := .ok 1024,
    upload := .ok "backups/db1/db1.sql.gz", cleanup := .ok [] }

/-- A run environment in which the dump succeeds but the upload fails. -/
def envUploadFail : RunEnv :=
  { dump := .ok ("/tmp/db1.sql.gz", "db1.sql.gz"), size := .ok 1024,
    upload := .error "AccessDenied", cleanup := .ok [] }

/-- A run environment in which dump and upload succeed but the retention
cleanup fails. -/
def envCleanupFail : RunEnv :=
  { dump := .ok ("/tmp/db1.sql.gz", "db1.sql.gz"), size := .ok 1024,
    upload := .ok "backups/db1/db1.sql.gz", cleanup := .error "ClientError" }

/-! # Theorems -/

/-! ### Basic lemmas about the cleanup loop -/

theorem deleteOld_eq_filter_map (cutoff : Int) (l : List S3Object) :
    deleteOld cutoff l =
      (l.filter (fun o => o.lastModified < cutoff)).map S3Object.key := by
  induction l with
  | nil => rfl
  | cons o rest ih =>
      by_cases h : o.lastModified < cutoff
      · simp [deleteOld, List.filter_cons, h, ih]
      · simp [deleteOld, List.filter_cons, h, ih]

theorem mem_deleteOld_iff (cutoff : Int) (l : List S3Object) (k : String) :
    k ∈ deleteOld cutoff l ↔
      ∃ o ∈ l, o.key = k ∧ o.lastModified < cutoff := by
  rw [deleteOld_eq_filter_map]
  simp only [List.mem_map, List.mem_filter, decide_eq_true_eq]
  constructor
  · rintro ⟨o, ⟨ho, hold⟩, hk⟩
    exact ⟨o, ho, hk, hold⟩
  · rintro ⟨o, ho, hk, hold⟩
    exact ⟨o, ⟨ho, hold⟩, hk⟩

/-! ### Lemmas about the next-run table -/

theorem find?_overwrite_self (db : String) (t : Int) (nr : NextRuns)
    (h : nr.any (fun q => q.1 == db) = true) :
    (nr.map (fun q => if q.1 == db then (db, t) else q)).find?
      (fun q => q.1 == db) = some (db, t) := by
  induction nr with
  | nil => simp at h
  | cons q rest ih =>
      rw [List.map_cons]
      by_cases hq : (q.1 == db) = true
      · rw [if_pos hq,
          List.find?_cons_of_pos (p := fun r : String × Int => r.1 == db) _ (by simp)]
      · have h' : rest.any (fun q => q.1 == db) = true := by
          simpa [List.any_cons, hq] using h
        rw [if_neg hq, List.find?_cons_of_neg (p := fun r : String × Int => r.1 == db) _ hq]
        exact ih h'

theorem find?_overwrite_ne (db db' : String) (t : Int) (nr : NextRuns)
    (h : db' ≠ db) :
    (nr.map (fun q => if q.1 == db then (db, t) else q)).find?
        (fun q => q.1 == db') =
      nr.find? (fun q => q.1 == db') := by
  induction nr with
  | nil => rfl
  | cons q rest ih =>
      rw [List.map_cons]
      have hdbne : ¬((db == db') = true) := by
        simpa using fun hc => h hc.symm
      by_cases hq : (q.1 == db) = true
      · have hq1 : q.1 = db := by simpa using hq
        have hq' : ¬((q.1 == db') = true) := by rw [hq1]; exact hdbne
        rw [if_pos hq,
          List.find?_cons_of_neg (p := fun r : String × Int => r.1 == db') _ hdbne,
          List.find?_cons_of_neg (p := fun r : String × Int => r.1 == db') _ hq']
        exact ih
      · by_cases hq' : (q.1 == db') = true
        · rw [if_neg hq,
            List.find?_cons_of_pos (p := fun r : String × Int => r.1 == db') _ hq',
            List.find?_cons_of_pos (p := fun r : String × Int => r.1 == db') _ hq']
        · rw [if_neg hq,
            List.find?_cons_of_neg (p := fun r : String × Int => r.1 == db') _ hq',
            List.find?_cons_of_neg (p := fun r : String × Int => r.1 == db') _ hq']
          exact ih

theorem lookupNR_insertNR_self (nr : NextRuns) (db : String) (t : Int) :
    lookupNR (insertNR nr db t) db = some t := by
  unfold insertNR lookupNR
  cases hany : nr.any (fun q => q.1 == db) with
  | true =>
      rw [if_pos rfl, find?_overwrite_self db t nr hany]
      rfl
  | false =>
      have hnone : nr.find? (fun q => q.1 == db) = none := by
        rw [List.find?_eq_none]
        intro q hq hc
        rw [List.any_eq_false] at hany
        exact hany q hq hc
      rw [if_neg (by simp), List.find?_append, hnone,
        List.find?_cons_of_pos (p := fun r : String × Int => r.1 == db) _ (by simp)]
      rfl

theorem lookupNR_insertNR_ne (nr : NextRuns) (db db' : String) (t : Int)
    (h : db' ≠ db) :
    lookupNR (insertNR nr db t) db' = lookupNR nr db' := by
  have hne : ¬((db == db') = true) := by
    simpa using fun hc => h hc.symm
  unfold insertNR lookupNR
  cases hany : nr.any (fun q => q.1 == db) with
  | true => rw [if_pos rfl, find?_overwrite_ne db db' t nr h]
  | false =>
      rw [if_neg (by simp), List.find?_append]
      cases hf : nr.find? (fun q => q.1 == db') with
      | some q => rfl
      | none =>
          rw [List.find?_cons_of_neg (p := fun r : String × Int => r.1 == db') _ hne]
          rfl

theorem lookupNR_update_next_run_ne (f : List String → Int → Int)
    (cfg : Config) (nr : NextRuns) (db now : _) (db' : String)
    (h : db' ≠ db) :
    lookupNR (update_next_run f cfg nr db now) db' = lookupNR nr db' := by
  unfold update_next_run
  cases hf : cfg.schedules.find? (fun s => s.database_name == db) with
  | none => rfl
  | some s =>
      by_cases h5 : (splitFields s.cron_expression).length = 5
      · simp [h5, lookupNR_insertNR_ne _ _ _ _ h]
      · simp [h5]

theorem lookupNR_update_next_run_self (f : List String → Int → Int)
    (cfg : Config) (nr : NextRuns) (db : String) (now : Int) :
    lookupNR (update_next_run f cfg nr db now) db =
      match cfg.schedules.find? (fun s => s.database_name == db) with
      | some s =>
          if (splitFields s.cron_expression).length = 5
          then some (f (splitFields s.cron_expression) now)
          else lookupNR nr db
      | none => lookupNR nr db := by
  unfold update_next_run
  cases hf : cfg.schedules.find? (fun s => s.database_name == db) with
  | none => rfl
  | some s =>
      by_cases h5 : (splitFields s.cron_expression).length = 5
      · simp [h5, lookupNR_insertNR_self]
      · simp [h5]

/-- Characterisation of the next-run table built by folding
`_update_next_run` over a list of schedules `L` (with configuration `cfg`
supplying the first-match lookup): the entry of `db` is the first matching
schedule's next run when that schedule's cron has five fields and some
schedule in `L` names `db`; otherwise it is whatever the starting table
held. -/
theorem lookupNR_foldl_update (f : List String → Int → Int) (cfg : Config)
    (now : Int) (L : List BackupSchedule) (nr : NextRuns) (db : String) :
    lookupNR
        (L.foldl
          (fun acc s => update_next_run f cfg acc s.database_name now) nr)
        db =
      match cfg.schedules.find? (fun s => s.database_name == db) with
      | some s =>
          if (splitFields s.cron_expression).length = 5 ∧
              L.any (fun t => t.database_name == db)
          then some (f (splitFields s.cron_expression) now)
          else lookupNR nr db
      | none => lookupNR nr db := by
  induction L generalizing nr with
  | nil =>
      cases hf : cfg.schedules.find? (fun s => s.database_name == db) <;>
        simp [List.foldl]
  | cons t rest ih =>
      rw [List.foldl_cons, ih]
      by_cases hdb : t.database_name = db
      · subst hdb
        cases hf : cfg.schedules.find?
            (fun s => s.database_name == t.database_name) with
        | none =>
            have : update_next_run f cfg nr t.database_name now = nr := by
              unfold update_next_run; rw [hf]
            simp [this]
        | some s =>
            by_cases h5 : (splitFields s.cron_expression).length = 5
            · have hself := lookupNR_update_next_run_self f cfg nr
                t.database_name now
              rw [hf] at hself
              simp only [h5, if_true] at hself
              by_cases hany : rest.any
                  (fun u => u.database_name == t.database_name)
              · simp [h5, hany]

              · simp [h5, hany, hself]
            · have : update_next_run f cfg nr t.database_name now = nr := by
                unfold update_next_run; rw [hf]; simp [h5]
              simp [h5, this]
      · have hlk := lookupNR_update_next_run_ne f cfg nr t.database_name now
          db (fun hc => hdb hc.symm)
        have hbeq : (t.database_name == db) = false := by
          simpa using hdb
        cases hf : cfg.schedules.find? (fun s => s.database_name == db) with
        | none => simp [hlk]
        | some s => simp [hlk, hbeq]

/-- `find?` over a filtered list agrees with `find?` when the predicate
found implies survival of the filter. -/
theorem find?_filter_of_imp (p q : α → Bool) (l : List α)
    (h : ∀ x, p x = true → q x = true) :
    (l.filter q).find? p = l.find? p := by
  induction l with
  | nil => rfl
  | cons x rest ih =>
      cases hq : q x with
      | true =>
          cases hp : p x with
          | true => simp [List.filter_cons, hq, hp]
          | false => simp [List.filter_cons, hq, hp, ih]
      | false =>
          have hp : p x = false := by
            cases hpx : p x with
            | false => rfl
            | true => rw [h x hpx] at hq; exact absurd hq (by simp)
          simp [List.filter_cons, hq, hp, ih]

/-- `any` over a filtered list agrees with `any` when the predicate implies
survival of the filter. -/
theorem any_filter_of_imp (p q : α → Bool) (l : List α)
    (h : ∀ x, p x = true → q x = true) :
    (l.filter q).any p = l.any p := by
  induction l with
  | nil => rfl
  | cons x rest ih =>
      cases hq : q x with
      | true => simp [List.filter_cons, hq, List.any_cons, ih]
      | false =>
          have hp : p x = false := by
            cases hpx : p x with
            | false => rfl
            | true => rw [h x hpx] at hq; exact absurd hq (by simp)
          simp [List.filter_cons, hq, List.any_cons, hp, ih]

/-! ## C1 — scope isolation of the cleanup -/

/-- **C1** (code bug).  The claim says cleanup for `db1` treats the scope as
exact path segments: it never deletes artifacts of another data source whose
name has `db1` as a string prefix (`db10`), and with no scope prefix it never
deletes artifacts under a deeper named scope (`backups/db1/daily`).  The code
lists with `Prefix = "backups/db1"` — no trailing slash and no delimiter — so
S3's string-prefix matching also returns `backups/db10/…` and
`backups/db1/daily/…`, and both get deleted: at the fixture bucket, cleanup
for `db1` with retention 30 days at day 100 deletes the `db10` artifact and
the `daily` artifact along with `backups/db1/a.sql.gz` (only `db2` survives).
This contradicts the code's own docstring (storage.py lines 75–79) and the
expectations of `test_cleanup_old_backups_path_structure`, whose mocked
paginator hides real S3 `Prefix` semantics. -/
theorem cleanup_deletes_db10_and_daily :
    cleanup_old_backups s3cfgEx bucketEx (100 * secondsPerDay) "db1" 30 none =
      [ "backups/db1/a.sql.gz",
        "backups/db1/daily/b.sql.gz",
        "backups/db10/c.sql.gz" ] := by
  decide

/-! ## C5 — retention boundary and returned key list -/

/-- **C5**.  For a cleanup with retention window `R` at time `now` (cutoff
`now - R` days): every listed artifact whose modification time equals the
cutoff exactly is *not* deleted, every listed artifact strictly older than
the cutoff *is* deleted, and the returned list is exactly the keys of the
old listed artifacts in listing (= deletion) order.  Key uniqueness in the
bucket (an S3 invariant) is assumed for the non-deletion direction. -/
theorem cleanup_retention_boundary_and_order (cfg : S3Config)
    (bucket : List S3Object) (now : Int) (db : String) (R : Int)
    (p : Option String) (hkeys : (bucket.map S3Object.key).Nodup) :
    (∀ o ∈ listObjects bucket (cleanupScopePfx cfg db p),
        (o.lastModified = now - R * secondsPerDay →
          o.key ∉ cleanup_old_backups cfg bucket now db R p) ∧
        (o.lastModified < now - R * secondsPerDay →
          o.key ∈ cleanup_old_backups cfg bucket now db R p)) ∧
    cleanup_old_backups cfg bucket now db R p =
      ((listObjects bucket (cleanupScopePfx cfg db p)).filter
          (fun o => o.lastModified < now - R * secondsPerDay)).map
        S3Object.key := by
  have hsub : (listObjects bucket (cleanupScopePfx cfg db p)).Sublist bucket :=
    List.filter_sublist bucket
  have hkeys' :
      ((listObjects bucket (cleanupScopePfx cfg db p)).map S3Object.key).Nodup :=
    (hsub.map S3Object.key).nodup hkeys
  have hinj := List.inj_on_of_nodup_map hkeys'
  constructor
  · intro o ho
    constructor
    · intro heq hmem
      rw [cleanup_old_backups, mem_deleteOld_iff] at hmem
      obtain ⟨o', ho', hk, hold⟩ := hmem
      have : o' = o := hinj ho' ho hk
      rw [this, heq] at hold
      exact lt_irrefl _ hold
    · intro hlt
      rw [cleanup_old_backups, mem_deleteOld_iff]
      exact ⟨o, ho, rfl, hlt⟩
  · rw [cleanup_old_backups, deleteOld_eq_filter_map]

/-- Witness for C5 at concrete inputs: with `now` at day 100 and retention 30
(cutoff day 70), the artifact modified exactly at day 70 is kept and the one
modified at time 0 is deleted. -/
theorem cleanup_retention_boundary_witness :
    "backups/db1/x.sql.gz" ∉
        cleanup_old_backups s3cfgEx
          [⟨"backups/db1/x.sql.gz", 70 * secondsPerDay⟩,
           ⟨"backups/db1/y.sql.gz", 0⟩]
          (100 * secondsPerDay) "db1" 30 none ∧
      "backups/db1/y.sql.gz" ∈
        cleanup_old_backups s3cfgEx
          [⟨"backups/db1/x.sql.gz", 70 * secondsPerDay⟩,
           ⟨"backups/db1/y.sql.gz", 0⟩]
          (100 * secondsPerDay) "db1" 30 none :=
  ⟨((cleanup_retention_boundary_and_order s3cfgEx
        [⟨"backups/db1/x.sql.gz", 70 * secondsPerDay⟩,
         ⟨"backups/db1/y.sql.gz", 0⟩]
        (100 * secondsPerDay) "db1" 30 none (by decide)).1
      ⟨"backups/db1/x.sql.gz", 70 * secondsPerDay⟩ (by decide)).1 (by decide),
   ((cleanup_retention_boundary_and_order s3cfgEx
        [⟨"backups/db1/x.sql.gz", 70 * secondsPerDay⟩,
         ⟨"backups/db1/y.sql.gz", 0⟩]
        (100 * secondsPerDay) "db1" 30 none (by decide)).1
      ⟨"backups/db1/y.sql.gz", 0⟩ (by decide)).2 (by decide)⟩

/-! ## C2 — schedule identity: claimed ScheduleKey vs actual keying -/

/-- **C2** (counterexample).  The claim says the scheduler maintains a
separate next-run entry and a separate active-run entry per
`(data_source_name, scope_prefix)` key.  With `cfgTwoSchedules` — two
schedules for `db1` with prefixes `daily` and `weekly` and distinct crons —
the next-run table initialised by `_update_next_runs` has exactly ONE entry,
keyed `"db1"`, whose time comes from the FIRST schedule's cron; after the
tick that dispatches it, the active set and the in-flight runs likewise hold
the single key `"db1"`.  The second schedule never obtains an independent
entry. -/
theorem two_schedules_share_one_key :
    update_next_runs cronNextEx cfgTwoSchedules [] 0 = [("db1", 100)] ∧
    (tick cronNextEx cfgTwoSchedules 150
        (initState cronNextEx cfgTwoSchedules 0)).active = ["db1"] ∧
    (tick cronNextEx cfgTwoSchedules 150
        (initState cronNextEx cfgTwoSchedules 0)).inflight = ["db1"] :=
  ⟨by decide, by decide, by decide⟩

/-- **C2** (amended).  The scheduler keys both the next-run table and the
active-run set by `data_source_name` alone: the entry a database has in the
table built by `_update_next_runs` is determined by the FIRST configured
schedule bearing its name (present iff that schedule's cron has five
fields), independent of any further schedules for the same database; and a
tick only ever adds keys of table entries (database names) to the active
set.  Two schedules for the same data source therefore share one entry
each, and are not independently dispatchable. -/
theorem scheduler_keying_by_database_name (f : List String → Int → Int)
    (cfg : Config) (now : Int) (db : String) :
    (lookupNR (update_next_runs f cfg [] now) db =
      match cfg.schedules.find? (fun s => s.database_name == db) with
      | some s =>
          if (splitFields s.cron_expression).length = 5
          then some (f (splitFields s.cron_expression) now)
          else none
      | none => none) ∧
    ∀ st : SchedState, ∀ a ∈ (tick f cfg now st).active,
      a ∈ st.active ∨ a ∈ st.nextRuns.map Prod.fst := by
  constructor
  · rw [update_next_runs, lookupNR_foldl_update]
    cases hf : cfg.schedules.find? (fun s => s.database_name == db) with
    | none => rfl
    | some s =>
        have hmem : s ∈ cfg.schedules := List.mem_of_find?_eq_some hf
        have hs : (s.database_name == db) = true :=
          List.find?_some (p := fun t : BackupSchedule => t.database_name == db) hf
        have hany : cfg.schedules.any (fun t => t.database_name == db) = true :=
          List.any_eq_true.mpr ⟨s, hmem, hs⟩
        simp only [hany, and_true, lookupNR]
        rfl
  · intro st
    suffices hgen : ∀ (items : List (String × Int)) (st₀ : SchedState),
        ∀ a ∈ (items.foldl (stepItem f cfg now) st₀).active,
          a ∈ st₀.active ∨ a ∈ items.map Prod.fst by
      intro a ha
      exact hgen st.nextRuns st a ha
    intro items
    induction items with
    | nil => intro st₀ a ha; exact Or.inl ha
    | cons it rest ih =>
        intro st₀ a ha
        rcases ih (stepItem f cfg now st₀ it) a ha with h1 | h2
        · unfold stepItem at h1
          by_cases hc : now ≥ it.2 ∧ it.1 ∉ st₀.active
          · rw [if_pos hc] at h1
            rcases List.mem_cons.mp h1 with rfl | h1'
            · exact Or.inr (by simp)
            · exact Or.inl h1'
          · rw [if_neg hc] at h1
            exact Or.inl h1
        · exact Or.inr (List.mem_cons_of_mem _ h2)

/-- Witness for C2's amended statement at a concrete state: the key `db1`
that the dispatching tick put into the active set is a key of the next-run
table of the starting state. -/
theorem scheduler_keying_by_database_name_witness :
    "db1" ∈ (initState cronNextEx cfgTwoSchedules 0).active ∨
      "db1" ∈ (initState cronNextEx cfgTwoSchedules 0).nextRuns.map
        Prod.fst :=
  (scheduler_keying_by_database_name cronNextEx cfgTwoSchedules 150 "db1").2
    (initState cronNextEx cfgTwoSchedules 0) "db1" (by decide)

/-! ## C7 — malformed cron expressions are excluded from scheduling -/

/-- **C7**.  A schedule whose cron expression does not split into exactly
five whitespace-separated fields raises `InvalidExpression` when evaluated;
when it is the schedule `_update_next_run` resolves for its database (the
first one bearing the name), that database never gains an entry in the
next-run table (so it is never dispatched), and the entries of all other
databases are exactly what they would be had the invalid database's
schedules not been configured at all. -/
theorem invalid_cron_never_scheduled (f : List String → Int → Int)
    (cfg : Config) (now : Int) (s : BackupSchedule)
    (hfind : cfg.schedules.find? (fun t => t.database_name == s.database_name)
      = some s)
    (hbad : (splitFields s.cron_expression).length ≠ 5) :
    lookupNR (update_next_runs f cfg [] now) s.database_name = none ∧
    ∀ db, db ≠ s.database_name →
      lookupNR (update_next_runs f cfg [] now) db =
        lookupNR
          (update_next_runs f
            { cfg with
              schedules := cfg.schedules.filter (fun t => !(t.database_name == s.database_name)) }
            [] now) db := by
  constructor
  · rw [update_next_runs, lookupNR_foldl_update, hfind]
    simp [hbad, lookupNR]
  · intro db hdb
    have himp : ∀ t : BackupSchedule, (t.database_name == db) = true →
        (!(t.database_name == s.database_name)) = true := by
      intro t ht
      have h1 : t.database_name = db := by simpa using ht
      rw [h1]
      simpa using hdb
    rw [update_next_runs, update_next_runs,
      lookupNR_foldl_update, lookupNR_foldl_update]
    simp only
    rw [find?_filter_of_imp _ _ _ himp, any_filter_of_imp _ _ _ himp]

/-- Witness for C7: in `cfgBadCron`, whose only `db1` schedule has the
two-field cron `"not acron"`, `db1` gains no next-run entry. -/
theorem invalid_cron_never_scheduled_witness :
    lookupNR (update_next_runs cronNextEx cfgBadCron [] 0) "db1" = none :=
  (invalid_cron_never_scheduled cronNextEx cfgBadCron 0
      ⟨"db1", "not acron", 30, none⟩ (by decide) (by decide)).1

/-! ## C3 — no double dispatch; one in-flight run per key -/

theorem stepItem_preserves (f : List String → Int → Int) (cfg : Config)
    (now : Int) (st : SchedState) (it : String × Int)
    (hnd : st.active.Nodup) (hp : st.inflight.Perm st.active) :
    (stepItem f cfg now st it).active.Nodup ∧
      (stepItem f cfg now st it).inflight.Perm
        (stepItem f cfg now st it).active := by
  unfold stepItem
  by_cases hc : now ≥ it.2 ∧ it.1 ∉ st.active
  · rw [if_pos hc]
    exact ⟨List.nodup_cons.mpr ⟨hc.2, hnd⟩, hp.cons it.1⟩
  · rw [if_neg hc]
    exact ⟨hnd, hp⟩

theorem foldl_stepItem_preserves (f : List String → Int → Int) (cfg : Config)
    (now : Int) (items : List (String × Int)) :
    ∀ st : SchedState, st.active.Nodup → st.inflight.Perm st.active →
      (items.foldl (stepItem f cfg now) st).active.Nodup ∧
        (items.foldl (stepItem f cfg now) st).inflight.Perm
          (items.foldl (stepItem f cfg now) st).active := by
  induction items with
  | nil => exact fun st h1 h2 => ⟨h1, h2⟩
  | cons it rest ih =>
      intro st h1 h2
      have h := stepItem_preserves f cfg now st it h1 h2
      exact ih _ h.1 h.2

/-- Invariant of every reachable scheduler state: the active set has no
duplicate keys and the in-flight runs are, as a multiset, exactly the
active keys. -/
theorem reachable_invariant (f : List String → Int → Int) (cfg : Config)
    (st : SchedState) (hr : Reachable f cfg st) :
    st.active.Nodup ∧ st.inflight.Perm st.active := by
  induction hr with
  | init now => exact ⟨List.nodup_nil, List.Perm.refl _⟩
  | step now hr ih =>
      exact foldl_stepItem_preserves f cfg now _ _ ih.1 ih.2
  | done db ok hr hin ih =>
      exact ⟨ih.1.erase db, ih.2.erase db⟩

/-- **C3**.  In every reachable scheduler state: a due snapshot entry whose
key is already in the active set is skipped (its loop iteration is a
no-op); the active set never holds duplicate keys; the in-flight runs match
the active keys exactly (the key is added on dispatch and removed exactly
when the run completes, successful or not); hence at most one run per key
is ever in flight. -/
theorem no_double_dispatch (f : List String → Int → Int) (cfg : Config)
    (st : SchedState) (hr : Reachable f cfg st) :
    (∀ now it, it.1 ∈ st.active → stepItem f cfg now st it = st) ∧
    st.active.Nodup ∧
    st.inflight.Perm st.active ∧
    ∀ db, st.inflight.count db ≤ 1 := by
  have hinv := reachable_invariant f cfg st hr
  refine ⟨?_, hinv.1, hinv.2, ?_⟩
  · intro now it hmem
    unfold stepItem
    rw [if_neg]
    intro hc
    exact hc.2 hmem
  · intro db
    rw [hinv.2.count_eq db]
    exact List.nodup_iff_count_le_one.mp hinv.1 db

/-- Witness for C3 at a concrete reachable state: after the tick that
dispatches `db1`, at most one `db1` run is in flight, and a second
attempt to dispatch the due entry `("db1", 100)` leaves the state
unchanged. -/
theorem no_double_dispatch_witness :
    (tick cronNextEx cfgTwoSchedules 150
        (initState cronNextEx cfgTwoSchedules 0)).inflight.count "db1" ≤ 1 ∧
    stepItem cronNextEx cfgTwoSchedules 150
        (tick cronNextEx cfgTwoSchedules 150
          (initState cronNextEx cfgTwoSchedules 0)) ("db1", 100) =
      tick cronNextEx cfgTwoSchedules 150
        (initState cronNextEx cfgTwoSchedules 0) :=
  ⟨(no_double_dispatch cronNextEx cfgTwoSchedules _
      (Reachable.step 150 (Reachable.init 0))).2.2.2 "db1",
   (no_double_dispatch cronNextEx cfgTwoSchedules _
      (Reachable.step 150 (Reachable.init 0))).1 150 ("db1", 100) (by decide)⟩

/-! ## C4 — unconfigured database name -/

/-- **C4** (counterexample).  The claim says that for an unconfigured
database name no notification — neither success nor failure — is sent.
With email notifications configured, `perform_backup` for the unknown name
`"nope"` raises the not-found `ValueError` *inside* its `try` block, so the
`except` handler attempts a failure notification before re-raising. -/
theorem notfound_notification_counterexample :
    (perform_backup cfgNotified envOk "nope" none).result
        = .error (.notFound "nope") ∧
    (perform_backup cfgNotified envOk "nope" none).failureNotified = true :=
  ⟨rfl, by decide⟩

/-- **C4** (amended).  A run for an unconfigured data-source name fails
immediately with the not-found error reported to the caller; nothing ran
(no dump, no upload, no local-file removal) and no success notification is
sent, but a failure notification IS attempted whenever email notifications
are configured, because the not-found check sits inside the run's general
failure handler. -/
theorem notfound_fails_immediately (cfg : Config) (env : RunEnv)
    (db : String) (si : Option Nat) (h : cfg.hasDb db = false) :
    perform_backup cfg env db si =
      ⟨.error (.notFound db), false, false,
        cfg.notifications_email.isSome⟩ := by
  simp [perform_backup, h]

/-- Witness for C4's amended statement at the concrete fixture. -/
theorem notfound_fails_immediately_witness :
    perform_backup cfgNotified envOk "nope" none =
      ⟨.error (.notFound "nope"), false, false, true⟩ :=
  notfound_fails_immediately cfgNotified envOk "nope" none (by decide)

/-! ## C6 — a cleanup failure is a run failure -/

/-- **C6**.  When the dump and the upload succeed but the retention cleanup
raises, the run is reported as a failure: the cleanup error propagates to
the direct caller, no success notification is sent, a failure notification
is attempted exactly when email notifications are configured — even though
the backup artifact itself was uploaded (and the local dump file already
removed). -/
theorem cleanup_failure_is_run_failure (cfg : Config) (env : RunEnv)
    (db : String) (si : Option Nat) (hdb : cfg.hasDb db = true)
    (pf : String × String) (hdump : env.dump = .ok pf)
    (n : Int) (hsize : env.size = .ok n)
    (k : String) (hup : env.upload = .ok k)
    (e : String) (hcl : env.cleanup = .error e) :
    (perform_backup cfg env db si).result = .error (.cleanupFailed e) ∧
    (perform_backup cfg env db si).successNotified = false ∧
    (perform_backup cfg env db si).failureNotified
        = cfg.notifications_email.isSome ∧
    (perform_backup cfg env db si).localRemoved = true := by
  simp [perform_backup, hdb, hdump, hsize, hup, hcl]

/-- Witness for C6 at the concrete fixture. -/
theorem cleanup_failure_is_run_failure_witness :
    (perform_backup cfgNotified envCleanupFail "db1" none).result
        = .error (.cleanupFailed "ClientError") ∧
    (perform_backup cfgNotified envCleanupFail "db1" none).failureNotified
        = true := by
  have h := cleanup_failure_is_run_failure cfgNotified envCleanupFail "db1"
    none (by decide) _ rfl _ rfl _ rfl _ rfl
  exact ⟨h.1, h.2.2.1.trans rfl⟩

/-! ## C8 — the local artifact survives an upload failure -/

theorem localRemoved_iff (cfg : Config) (env : RunEnv) (db : String)
    (si : Option Nat) :
    (perform_backup cfg env db si).localRemoved = true ↔
      cfg.hasDb db = true ∧ (∃ pf, env.dump = .ok pf) ∧
        (∃ n, env.size = .ok n) ∧ ∃ k, env.upload = .ok k := by
  unfold perform_backup
  cases h0 : cfg.hasDb db <;> cases h1 : env.dump <;> cases h2 : env.size <;>
    cases h3 : env.upload <;> cases h4 : env.cleanup <;> simp_all

/-- **C8**.  The local dump file is removed only strictly after a confirmed
successful upload: if the run removed it, the upload (and the dump before
it) succeeded; and whenever the upload fails, the local artifact is NOT
deleted. -/
theorem local_file_kept_unless_uploaded (cfg : Config) (env : RunEnv)
    (db : String) (si : Option Nat) :
    ((perform_backup cfg env db si).localRemoved = true →
      (∃ pf, env.dump = .ok pf) ∧ ∃ k, env.upload = .ok k) ∧
    ∀ e, env.upload = .error e →
      (perform_backup cfg env db si).localRemoved = false := by
  have hiff := localRemoved_iff cfg env db si
  constructor
  · intro hl
    exact ⟨(hiff.mp hl).2.1, (hiff.mp hl).2.2.2⟩
  · intro e he
    cases hlr : (perform_backup cfg env db si).localRemoved with
    | false => rfl
    | true =>
        obtain ⟨k, hk⟩ := (hiff.mp hlr).2.2.2
        rw [he] at hk
        cases hk

/-- Witness for C8 at the concrete fixture where the upload fails. -/
theorem local_file_kept_unless_uploaded_witness :
    (perform_backup cfgNotified envUploadFail "db1" none).localRemoved
      = false :=
  (local_file_kept_unless_uploaded cfgNotified envUploadFail "db1" none).2
    "AccessDenied" rfl

/-! ## C9 — schedule lookup by index with a mismatching database name -/

/-- **C9** (counterexample).  The claim says an index whose schedule exists
but names another database falls back to the DEFAULT schedule
`{retention_days: 30, scope_prefix: none, cron_expression: none}`.  In
`cfgMismatch`, index 0 belongs to `db2`, yet the lookup for `db1` returns
`db1`'s own first schedule (retention 7, prefix `daily`), not the
default. -/
theorem schedule_index_mismatch_counterexample :
    get_schedule_info cfgMismatch "db1" (some 0) ≠ defaultScheduleInfo ∧
    get_schedule_info cfgMismatch "db1" (some 0) =
      { index := some 1, retention_days := 7, pfx := some "daily",
        cron_expression := some "0 4 * * *" } :=
  ⟨by decide, by decide⟩

/-- **C9** (amended).  A mismatching indexed lookup is treated as
not-found: it falls back to the no-index lookup, i.e. the FIRST schedule
configured for the expected database; only when no schedule for that
database exists at all does it return the default
`{retention_days: 30, prefix: none, cron_expression: none}`. -/
theorem schedule_index_mismatch_falls_back (cfg : Config) (db : String)
    (i : Nat) (s : BackupSchedule) (hi : cfg.schedules.get? i = some s)
    (hm : s.database_name ≠ db) :
    get_schedule_info cfg db (some i) = fallbackScheduleInfo cfg db ∧
    (cfg.schedules.find? (fun t => t.database_name == db) = none →
      get_schedule_info cfg db (some i) = defaultScheduleInfo) := by
  have h1 : get_schedule_info cfg db (some i)
      = fallbackScheduleInfo cfg db := by
    have hi2 : cfg.schedules[i]? = some s := by
      rw [← List.get?_eq_getElem?]
      exact hi
    simp [get_schedule_info, hi2, hm]
  refine ⟨h1, fun hn => ?_⟩
  rw [h1]
  unfold fallbackScheduleInfo
  rw [hn]

/-- Witness for C9's amended statement at the concrete fixture. -/
theorem schedule_index_mismatch_falls_back_witness :
    get_schedule_info cfgMismatch "db1" (some 0)
      = fallbackScheduleInfo cfgMismatch "db1" :=
  (schedule_index_mismatch_falls_back cfgMismatch "db1" 0
      ⟨"db2", "0 3 * * *", 14, none⟩ (by decide) (by decide)).1

/-! ## C10 — cleanup with a prefix matching no schedule -/

theorem findSchedIdx_none (db p : String) (L : List BackupSchedule)
    (h : ∀ s ∈ L, ¬(s.database_name = db ∧ s.pfx = some p)) :
    ∀ i, findSchedIdx db p i L = none := by
  induction L with
  | nil => intro i; rfl
  | cons s rest ih =>
      intro i
      unfold findSchedIdx
      rw [if_neg]
      · exact ih (fun t ht => h t (List.mem_cons_of_mem _ ht)) (i + 1)
      · intro hc
        simp only [Bool.and_eq_true, beq_iff_eq] at hc
        exact h s (List.mem_cons_self _ _) hc

/-- **C10**.  `cleanup_old_backups(db, days=None, schedule_prefix=p)` with a
configured `db` and a (non-empty) prefix `p` matching no configured schedule
of `db` does not error: `_get_schedule_by_prefix` returns the default
schedule info, so the cleanup runs with the default retention of 30 days,
scoped under the caller-supplied prefix `p` anyway, and returns the deleted
keys of that scope. -/
theorem cleanup_unmatched_prefix_uses_default_retention (cfg : Config)
    (bucket : List S3Object) (now : Int) (db p : String)
    (hdb : cfg.hasDb db = true) (hp : p ≠ "")
    (hnm : ∀ s ∈ cfg.schedules, ¬(s.database_name = db ∧ s.pfx = some p)) :
    service_cleanup_old_backups cfg bucket now db none (some p) =
      .ok (cleanup_old_backups cfg.s3 bucket now db 30 (some p)) := by
  have hnone := findSchedIdx_none db p cfg.schedules hnm 0
  simp [service_cleanup_old_backups, hdb, hp, get_schedule_by_pfx, hnone,
    defaultScheduleInfo, pyOrStr]

/-- Witness for C10 at the concrete fixture: `db1` has no `weekly`
schedule in `cfgMismatch`, yet its cleanup proceeds with retention 30
under `backups/db1/weekly`. -/
theorem cleanup_unmatched_prefix_witness :
    service_cleanup_old_backups cfgMismatch bucketEx (100 * secondsPerDay)
        "db1" none (some "weekly") =
      .ok (cleanup_old_backups cfgMismatch.s3 bucketEx (100 * secondsPerDay)
        "db1" 30 (some "weekly")) :=
  cleanup_unmatched_prefix_uses_default_retention cfgMismatch bucketEx
    (100 * secondsPerDay) "db1" "weekly" (by decide) (by decide)
    (by intro s hs; fin_cases hs <;> simp)

end Dbsavr
